/-
Verification of the credential and session-management subsystem of a small
social-feed web application (password hashing/verification utilities plus
cookie-session issuance, validation and revocation embedded in the auth
route handlers).

Modelling conventions:
* JavaScript strings are modelled as `List Char`; `charCodeAt` is `Char.toNat`
  (all characters the claims exercise are ASCII, where UTF-16 code units and
  Unicode scalar values coincide).
* Byte arrays (`Uint8Array`) are `List Nat` whose entries are < 256.
* The PBKDF2-SHA-256 key derivation performed by the WebCrypto platform
  primitive `crypto.subtle.deriveBits` (composed with `TextEncoder.encode`
  on the password) is not repository code; it is modelled as an abstract
  deterministic function of (password, salt, iterations, byte length).
  `WellBehavedKDF` records the two facts the platform guarantees: the output
  has the requested length and its entries are bytes.  `deriveBits` is asked
  for `(hashHex.length / 2) * 8` bits; we model the request directly as
  `hashHex.length / 2` bytes (for an odd-length hash field the platform
  would reject the fractional bit count; no claim exercises that corner).
* Fallible code returns `Except String`; the thrown `Error` messages are the
  source's: "Bad hash format" (the spec's MalformedCredential) and
  "Invalid hex string".
* The session store (the `sessions` SQL table) is a list of records in
  insertion order; `SELECT ... WHERE token = ?` is `List.filter` and the
  handler's `results[0]` is the head of the filtered list; `DELETE ... WHERE
  token = ?` removes every matching record.
* `Date.now()` / `new Date()` readings are passed in as millisecond clock
  parameters; `setDate(getDate() + 30)` adds exactly 30·86400000 ms in a
  DST-free (UTC) environment such as the deployment runtime.
-/

import Mathlib

set_option maxHeartbeats 1000000

/-! ### Hex encoding (`buf2hex`, `hex2buf` from utils/password-hash) -/

/-- Value of one hex digit as `parseInt` radix 16 accepts it: `0-9`, `a-f`,
`A-F`.  (`parseInt`'s exotic prefixes — whitespace, signs, `0x` — are not
modelled; no claim presents such input inside a hex field.) -/
def hexVal (c : Char) : Option Nat :=
  let n := c.toNat
  if 48 ≤ n ∧ n ≤ 57 then some (n - 48)
  else if 97 ≤ n ∧ n ≤ 102 then some (n - 87)
  else if 65 ≤ n ∧ n ≤ 70 then some (n - 55)
  else none

/-- Digit rendering in a given base, driven by structural fuel so that both
proofs and concrete kernel evaluation reduce (`n + 1` units of fuel always
suffice as the argument strictly decreases). -/
def toBaseDigitsAux (base : Nat) : Nat → Nat → List Char
  | 0, _ => []
  | fuel + 1, n =>
    if n < base then [Nat.digitChar n]
    else toBaseDigitsAux base fuel (n / base) ++ [Nat.digitChar (n % base)]

/-- JavaScript `n.toString(16)`: lowercase base-16 digits, no leading zeros,
`"0"` for zero. -/
def jsToString16 (n : Nat) : List Char := toBaseDigitsAux 16 (n + 1) n

/-- JavaScript `String.prototype.padStart(len, c)`. -/
def padStart (len : Nat) (c : Char) (s : List Char) : List Char :=
  List.replicate (len - s.length) c ++ s

/-- One step of `buf2hex`: `b.toString(16).padStart(2, '0')`. -/
def byteToHex (b : Nat) : List Char :=
  padStart 2 '0' (jsToString16 b)

/-- `buf2hex(buf)`: concatenation of the two-digit lowercase hex encodings of
the bytes. -/
def buf2hex (buf : List Nat) : List Char :=
  (buf.map byteToHex).flatten

/-- `parseInt(s, 16)` on a two-character slice, followed by the `Uint8Array`
element store (NaN becomes 0): invalid first digit gives 0, an invalid second
digit leaves a one-digit parse. -/
def parseIntHex2 (c1 c2 : Char) : Nat :=
  match hexVal c1 with
  | none => 0
  | some d1 =>
    match hexVal c2 with
    | none => d1
    | some d2 => d1 * 16 + d2

/-- The two-character slices `hex.slice(i * 2, i * 2 + 2)` for `i <
hex.length / 2`. -/
def chunk2 : List Char → List (Char × Char)
  | c1 :: c2 :: rest => (c1, c2) :: chunk2 rest
  | _ => []

/-- `hex2buf(hex)`: throws `'Invalid hex string'` on odd length, otherwise
parses consecutive two-character slices. -/
def hex2buf (hex : List Char) : Except String (List Nat) :=
  if hex.length % 2 ≠ 0 then .error "Invalid hex string"
  else .ok ((chunk2 hex).map fun p => parseIntHex2 p.1 p.2)

/-! ### Decimal rendering and parsing (template interpolation, `Number`) -/

/-- JavaScript decimal rendering of a natural number (template-literal
interpolation of `ITERATIONS`). -/
def natToDecimal (n : Nat) : List Char := toBaseDigitsAux 10 (n + 1) n

/-- `Number(s)` restricted to the nonempty all-digit numerals the credential
format produces (on other input `Number` yields NaN or other floats, which
the downstream KDF call would reject; modelled by the junk value 0, which no
claim exercises). -/
def parseDecimal (s : List Char) : Nat :=
  if s ≠ [] ∧ s.all (fun c => c.isDigit) then
    s.foldl (fun a c => a * 10 + (c.toNat - 48)) 0
  else 0

/-! ### Splitting on `':'` (`stored.split(':')`) -/

/-- JavaScript `s.split(':')`. -/
def splitOnColon : List Char → List (List Char)
  | [] => [[]]
  | c :: rest =>
    if c = ':' then [] :: splitOnColon rest
    else
      match splitOnColon rest with
      | [] => [[c]]
      | p :: ps => (c :: p) :: ps

/-! ### Constant-time comparison and the password API -/

/-- `constantTimeEqual(a, b)` from the source: operates on two *strings*,
returning false immediately on a length mismatch and otherwise OR-folding the
XOR of the `charCodeAt` values over the whole length. -/
def constantTimeEqual (a b : List Char) : Bool :=
  if a.length ≠ b.length then false
  else ((List.zipWith (fun x y => x.toNat ^^^ y.toNat) a b).foldl (· ||| ·) 0) == 0

/-- Modelled from the spec: the comparison §9 of the spec prescribes —
a fixed-length XOR-accumulate over *byte arrays* (raw bytes, not character
codes), rejecting immediately only on length. -/
def ctEqualBytesSpec (a b : List Nat) : Bool :=
  if a.length ≠ b.length then false
  else ((List.zipWith (fun x y => x ^^^ y) a b).foldl (· ||| ·) 0) == 0

/-- The abstract key-derivation primitive: password characters, salt bytes,
iteration count, requested output length in bytes. -/
def KDF : Type := List Char → List Nat → Nat → Nat → List Nat

/-- The platform guarantees about `deriveBits`: requested output length and
byte-valued entries. -/
structure WellBehavedKDF (kdf : KDF) : Prop where
  length_eq : ∀ pw salt iter n, (kdf pw salt iter n).length = n
  bytes_lt : ∀ pw salt iter n, ∀ b ∈ kdf pw salt iter n, b < 256

def ITERATIONS : Nat := 100000
def SALT_LEN : Nat := 16
def KEY_LEN : Nat := 32

/-- `hashPassword(password)` with the randomly generated salt passed in
explicitly: derives `KEY_LEN` bytes with `ITERATIONS` iterations and returns
`` `${buf2hex(salt)}:${buf2hex(bits)}:${ITERATIONS}` ``. -/
def hashPassword (kdf : KDF) (salt : List Nat) (password : List Char) : List Char :=
  let bits := kdf password salt ITERATIONS KEY_LEN
  buf2hex salt ++ ':' :: (buf2hex bits ++ ':' :: natToDecimal ITERATIONS)

/-- `verifyPassword(password, stored)`: splits on `':'` (throwing
`'Bad hash format'` unless exactly three parts), hex-decodes the salt,
re-derives `hashHex.length / 2` bytes with the stored iteration count and
compares hex encodings with `constantTimeEqual`. -/
def verifyPassword (kdf : KDF) (password stored : List Char) : Except String Bool :=
  match splitOnColon stored with
  | [saltHex, hashHex, iterStr] =>
    match hex2buf saltHex with
    | .error e => .error e
    | .ok salt =>
      let iterations := parseDecimal iterStr
      let bits := kdf password salt iterations (hashHex.length / 2)
      .ok (constantTimeEqual (buf2hex bits) hashHex)
  | _ => .error "Bad hash format"

/-! ### Session store and the auth route handlers -/

/-- A row of the `users` table as `getUserFromSession` selects and returns
it. -/
structure UserRecord where
  id : Nat
  email : List Char
  username : List Char
  description : Option (List Char)
  profilePhoto : Option (List Char)
deriving DecidableEq, Repr

/-- A row of the `sessions` table. -/
structure SessionRecord where
  userId : Nat
  token : List Char
  createdAt : Nat
  expiresAt : Nat
deriving DecidableEq, Repr

abbrev SessionStore := List SessionRecord

/-- `SELECT ... FROM sessions WHERE token = ?`. -/
def findSessions (db : SessionStore) (token : List Char) : List SessionRecord :=
  db.filter (fun s => s.token == token)

/-- `DELETE FROM sessions WHERE token = ?`. -/
def deleteSessions (db : SessionStore) (token : List Char) : SessionStore :=
  db.filter (fun s => !(s.token == token))

/-- `SELECT ... FROM users WHERE id = ?`. -/
def findUsers (users : List UserRecord) (uid : Nat) : List UserRecord :=
  users.filter (fun u => u.id == uid)

/-- `getUserFromSession`: empty/absent cookie short-circuits to null; a found
session past its expiry is deleted and yields null; otherwise the referenced
user is resolved.  Returns the result together with the session store after
the call. -/
def getUserFromSession (db : SessionStore) (users : List UserRecord)
    (token : List Char) (nowSeconds : Nat) : Option UserRecord × SessionStore :=
  if token = [] then (none, db)
  else
    match findSessions db token with
    | [] => (none, db)
    | session :: _ =>
      if session.expiresAt ≤ nowSeconds then (none, deleteSessions db token)
      else
        match findUsers users session.userId with
        | [] => (none, db)
        | _user :: _ => (some _user, db)

/-- The logout handler's store effect: if a session cookie is present, delete
its rows; always succeeds. -/
def revokeSession (db : SessionStore) (token : List Char) : SessionStore :=
  if token = [] then db else deleteSessions db token

/-- Session issuance as performed identically by the register and login
handlers.  `t0Ms` is the clock reading at `new Date()` (the expiry base),
`t1Ms` the separate `Date.now()` reading bound as `created_at`; the handler
reads the clock twice.  30 days = 2 592 000 000 ms. -/
def issueSession (uid : Nat) (token : List Char) (t0Ms t1Ms : Nat) : SessionRecord :=
  { userId := uid, token := token,
    createdAt := t1Ms / 1000,
    expiresAt := (t0Ms + 2592000000) / 1000 }

/-! ### Helper lemmas: characters, bitwise folds -/

theorem charToNat_inj {c d : Char} (h : c.toNat = d.toNat) : c = d :=
  Char.ext (UInt32.ext h)

theorem nat_lor_eq_zero_iff {a b : Nat} : a ||| b = 0 ↔ a = 0 ∧ b = 0 := by
  constructor
  · intro h
    have ha : ∀ i, a.testBit i = false := by
      intro i
      have hb := congrArg (fun x => Nat.testBit x i) h
      simp [Nat.testBit_lor] at hb
      exact hb.1
    have hbb : ∀ i, b.testBit i = false := by
      intro i
      have hb := congrArg (fun x => Nat.testBit x i) h
      simp [Nat.testBit_lor] at hb
      exact hb.2
    exact ⟨Nat.zero_of_testBit_eq_false ha, Nat.zero_of_testBit_eq_false hbb⟩
  · rintro ⟨rfl, rfl⟩
    rfl

theorem foldl_lor_eq_zero : ∀ (l : List Nat) (acc : Nat),
    (l.foldl (· ||| ·) acc = 0 ↔ acc = 0 ∧ ∀ x ∈ l, x = 0)
  | [], acc => by simp
  | x :: l, acc => by
    simp only [List.foldl_cons]
    rw [foldl_lor_eq_zero l (acc ||| x)]
    simp only [nat_lor_eq_zero_iff, List.mem_cons]
    constructor
    · rintro ⟨⟨h1, h2⟩, h3⟩
      exact ⟨h1, fun y hy => hy.elim (fun e => e ▸ h2) (h3 y)⟩
    · rintro ⟨h1, h2⟩
      exact ⟨⟨h1, h2 x (Or.inl rfl)⟩, fun y hy => h2 y (Or.inr hy)⟩

theorem charlist_eq_of_zip_xor : ∀ (a b : List Char), a.length = b.length →
    (∀ x ∈ List.zipWith (fun x y => x.toNat ^^^ y.toNat) a b, x = 0) → a = b
  | [], [], _, _ => rfl
  | c :: a, d :: b, hl, h => by
    have hcd : c.toNat ^^^ d.toNat = 0 := h _ (by simp [List.zipWith_cons_cons])
    have : c = d := charToNat_inj (Nat.xor_eq_zero.mp hcd)
    subst this
    have := charlist_eq_of_zip_xor a b (by simpa using hl)
      (fun x hx => h x (by simp [List.zipWith_cons_cons, hx]))
    rw [this]

theorem zip_xor_self_zero : ∀ (a : List Char),
    ∀ x ∈ List.zipWith (fun x y => x.toNat ^^^ y.toNat) a a, x = 0
  | [], x, hx => by simp at hx
  | c :: a, x, hx => by
    simp only [List.zipWith_cons_cons, List.mem_cons] at hx
    rcases hx with h | h
    · simpa [Nat.xor_self] using h
    · exact zip_xor_self_zero a x h

/-- `constantTimeEqual` is, extensionally, equality of the two character
sequences. -/
theorem ctEq_true_iff (a b : List Char) : constantTimeEqual a b = true ↔ a = b := by
  unfold constantTimeEqual
  by_cases hl : a.length = b.length
  · simp only [hl, ne_eq, not_true_eq_false, if_false, beq_iff_eq]
    rw [foldl_lor_eq_zero]
    constructor
    · rintro ⟨-, h⟩
      exact charlist_eq_of_zip_xor a b hl h
    · rintro rfl
      exact ⟨rfl, zip_xor_self_zero a⟩
  · simp only [ne_eq, hl, not_false_eq_true, if_true]
    constructor
    · intro h
      exact absurd h (by simp)
    · intro h
      exact absurd (congrArg List.length h) hl

/-! ### Helper lemmas: hex digits and the encode/decode roundtrip -/

theorem toBaseDigitsAux_fuel (base : Nat) (hb : 2 ≤ base) :
    ∀ f1 f2 n, n < f1 → n < f2 →
      toBaseDigitsAux base f1 n = toBaseDigitsAux base f2 n := by
  intro f1
  induction f1 with
  | zero => omega
  | succ f ihf =>
    intro f2 n h1 h2
    cases f2 with
    | zero => omega
    | succ g =>
      show toBaseDigitsAux base (f + 1) n = toBaseDigitsAux base (g + 1) n
      rw [toBaseDigitsAux, toBaseDigitsAux]
      by_cases hn : n < base
      · simp [hn]
      · simp only [hn, if_false]
        have hdiv : n / base < n := Nat.div_lt_self (by omega) (by omega)
        rw [ihf g (n / base) (by omega) (by omega)]

theorem jsToString16_eq (n : Nat) :
    jsToString16 n
      = if n < 16 then [Nat.digitChar n]
        else jsToString16 (n / 16) ++ [Nat.digitChar (n % 16)] := by
  show toBaseDigitsAux 16 (n + 1) n = _
  rw [toBaseDigitsAux]
  by_cases hn : n < 16
  · simp [hn]
  · simp only [hn, if_false]
    have hdiv : n / 16 < n := Nat.div_lt_self (by omega) (by omega)
    rw [toBaseDigitsAux_fuel 16 (by omega) n (n / 16 + 1) (n / 16) (by omega) (by omega)]
    rfl

theorem natToDecimal_eq (n : Nat) :
    natToDecimal n
      = if n < 10 then [Nat.digitChar n]
        else natToDecimal (n / 10) ++ [Nat.digitChar (n % 10)] := by
  show toBaseDigitsAux 10 (n + 1) n = _
  rw [toBaseDigitsAux]
  by_cases hn : n < 10
  · simp [hn]
  · simp only [hn, if_false]
    have hdiv : n / 10 < n := Nat.div_lt_self (by omega) (by omega)
    rw [toBaseDigitsAux_fuel 10 (by omega) n (n / 10 + 1) (n / 10) (by omega) (by omega)]
    rfl

theorem hexVal_digitChar : ∀ d < 16, hexVal (Nat.digitChar d) = some d := by decide

theorem digitChar_ne_colon : ∀ d < 16, Nat.digitChar d ≠ ':' := by decide

theorem digitChar_isDigit : ∀ d < 10, (Nat.digitChar d).isDigit = true := by decide

theorem digitChar_toNat : ∀ d < 10, (Nat.digitChar d).toNat - 48 = d := by decide

theorem jsToString16_small {b : Nat} (h : b < 16) : jsToString16 b = [Nat.digitChar b] := by
  rw [jsToString16_eq]
  simp [h]

theorem byteToHex_eq {b : Nat} (h : b < 256) :
    byteToHex b = [Nat.digitChar (b / 16), Nat.digitChar (b % 16)] := by
  by_cases h16 : b < 16
  · have hd : b / 16 = 0 := Nat.div_eq_of_lt h16
    have hm : b % 16 = b := Nat.mod_eq_of_lt h16
    rw [byteToHex, jsToString16_small h16, hd, hm]
    rfl
  · have hdiv : b / 16 < 16 := by omega
    rw [byteToHex, jsToString16_eq]
    simp only [h16, if_false]
    rw [jsToString16_small hdiv]
    rfl

theorem buf2hex_nil : buf2hex [] = [] := rfl

theorem buf2hex_cons (b : Nat) (bs : List Nat) :
    buf2hex (b :: bs) = byteToHex b ++ buf2hex bs := by
  simp [buf2hex]

theorem buf2hex_length : ∀ (bs : List Nat), (∀ b ∈ bs, b < 256) →
    (buf2hex bs).length = 2 * bs.length
  | [], _ => rfl
  | b :: bs, h => by
    rw [buf2hex_cons, List.length_append, byteToHex_eq (h b (by simp)),
      buf2hex_length bs (fun x hx => h x (by simp [hx]))]
    simp
    ring

theorem mem_buf2hex : ∀ (bs : List Nat), (∀ b ∈ bs, b < 256) →
    ∀ c ∈ buf2hex bs, ∃ d, d < 16 ∧ c = Nat.digitChar d
  | [], _, c, hc => by simp [buf2hex_nil] at hc
  | b :: bs, h, c, hc => by
    rw [buf2hex_cons, List.mem_append, byteToHex_eq (h b (by simp))] at hc
    simp only [List.mem_cons, List.not_mem_nil, or_false] at hc
    rcases hc with (hc | hc) | hc
    · exact ⟨b / 16, by have := h b (by simp); omega, hc⟩
    · exact ⟨b % 16, by omega, hc⟩
    · exact mem_buf2hex bs (fun x hx => h x (by simp [hx])) c hc

theorem buf2hex_no_colon (bs : List Nat) (h : ∀ b ∈ bs, b < 256) :
    ':' ∉ buf2hex bs := by
  intro hc
  obtain ⟨d, hd, he⟩ := mem_buf2hex bs h ':' hc
  exact digitChar_ne_colon d hd he.symm

theorem buf2hex_hexVal (bs : List Nat) (h : ∀ b ∈ bs, b < 256) :
    ∀ c ∈ buf2hex bs, (hexVal c).isSome := by
  intro c hc
  obtain ⟨d, hd, he⟩ := mem_buf2hex bs h c hc
  rw [he, hexVal_digitChar d hd]
  rfl

theorem parseIntHex2_digitChar {b : Nat} (h : b < 256) :
    parseIntHex2 (Nat.digitChar (b / 16)) (Nat.digitChar (b % 16)) = b := by
  have h1 : b / 16 < 16 := by omega
  have h2 : b % 16 < 16 := by omega
  simp only [parseIntHex2, hexVal_digitChar _ h1, hexVal_digitChar _ h2]
  omega

theorem chunk2_buf2hex : ∀ (bs : List Nat), (∀ b ∈ bs, b < 256) →
    (chunk2 (buf2hex bs)).map (fun p => parseIntHex2 p.1 p.2) = bs
  | [], _ => rfl
  | b :: bs, h => by
    rw [buf2hex_cons, byteToHex_eq (h b (by simp))]
    show (chunk2 (_ :: _ :: buf2hex bs)).map _ = _
    rw [chunk2]
    simp only [List.map_cons]
    rw [parseIntHex2_digitChar (h b (by simp)),
      chunk2_buf2hex bs (fun x hx => h x (by simp [hx]))]

/-- Decoding inverts encoding on byte lists. -/
theorem hex2buf_buf2hex (bs : List Nat) (h : ∀ b ∈ bs, b < 256) :
    hex2buf (buf2hex bs) = .ok bs := by
  rw [hex2buf]
  have hlen : (buf2hex bs).length % 2 = 0 := by
    rw [buf2hex_length bs h]
    omega
  simp only [hlen, ne_eq, not_true_eq_false, ite_false, if_false]
  rw [chunk2_buf2hex bs h]

/-- Hex encoding is injective on byte lists. -/
theorem buf2hex_inj {a b : List Nat} (ha : ∀ x ∈ a, x < 256) (hb : ∀ x ∈ b, x < 256)
    (h : buf2hex a = buf2hex b) : a = b := by
  have := hex2buf_buf2hex a ha
  rw [h, hex2buf_buf2hex b hb] at this
  exact (Except.ok.inj this).symm

/-! ### Helper lemmas: splitting and decimal numerals -/

theorem splitOnColon_ne_nil : ∀ (s : List Char), splitOnColon s ≠ []
  | [] => by simp [splitOnColon]
  | c :: rest => by
    rw [splitOnColon]
    by_cases hc : c = ':'
    · simp [hc]
    · simp only [hc, if_false]
      cases hr : splitOnColon rest with
      | nil => simp
      | cons p ps => simp

theorem splitOnColon_no_colon : ∀ (s : List Char), ':' ∉ s → splitOnColon s = [s]
  | [], _ => rfl
  | c :: rest, h => by
    have hc : ¬(c = ':') := fun e => h (by simp [e])
    rw [splitOnColon]
    simp only [hc, if_false]
    rw [splitOnColon_no_colon rest (fun e => h (by simp [e]))]

theorem splitOnColon_append : ∀ (a r : List Char), ':' ∉ a →
    splitOnColon (a ++ ':' :: r) = a :: splitOnColon r
  | [], r, _ => by simp [splitOnColon]
  | c :: a, r, h => by
    have hc : ¬(c = ':') := fun e => h (by simp [e])
    show splitOnColon (c :: (a ++ ':' :: r)) = _
    rw [splitOnColon]
    simp only [hc, if_false]
    rw [splitOnColon_append a r (fun e => h (by simp [e]))]

/-- Splitting a three-field colon-joined string recovers the fields. -/
theorem splitOnColon_three (a b c : List Char)
    (ha : ':' ∉ a) (hb : ':' ∉ b) (hc : ':' ∉ c) :
    splitOnColon (a ++ ':' :: (b ++ ':' :: c)) = [a, b, c] := by
  rw [splitOnColon_append a _ ha, splitOnColon_append b _ hb, splitOnColon_no_colon c hc]

theorem natToDecimal_small {n : Nat} (h : n < 10) : natToDecimal n = [Nat.digitChar n] := by
  rw [natToDecimal_eq]
  simp [h]

theorem natToDecimal_digits : ∀ (n : Nat), ∀ c ∈ natToDecimal n, c.isDigit = true := by
  intro n
  induction n using Nat.strong_induction_on with
  | _ n ih =>
    intro c hc
    by_cases h : n < 10
    · rw [natToDecimal_small h] at hc
      simp at hc
      rw [hc]
      exact digitChar_isDigit n h
    · rw [natToDecimal_eq] at hc
      simp only [h, if_false, List.mem_append, List.mem_cons, List.not_mem_nil, or_false] at hc
      rcases hc with hc | hc
      · exact ih (n / 10) (Nat.div_lt_self (by omega) (by omega)) c hc
      · rw [hc]
        exact digitChar_isDigit (n % 10) (by omega)

theorem natToDecimal_no_colon (n : Nat) : ':' ∉ natToDecimal n := by
  intro hc
  have := natToDecimal_digits n ':' hc
  simp [Char.isDigit] at this

theorem natToDecimal_ne_nil : ∀ (n : Nat), natToDecimal n ≠ [] := by
  intro n
  by_cases h : n < 10
  · rw [natToDecimal_small h]
    simp
  · rw [natToDecimal_eq]
    simp [h]

theorem decFold_natToDecimal : ∀ (n : Nat), ∀ (a : Nat),
    (natToDecimal n).foldl (fun a c => a * 10 + (c.toNat - 48)) a
      = a * 10 ^ (natToDecimal n).length + n := by
  intro n
  induction n using Nat.strong_induction_on with
  | _ n ih =>
    intro a
    by_cases h : n < 10
    · rw [natToDecimal_small h]
      simp [digitChar_toNat n h]
    · have hrec : natToDecimal n = natToDecimal (n / 10) ++ [Nat.digitChar (n % 10)] := by
        rw [natToDecimal_eq]
        simp [h]
      rw [hrec, List.foldl_append, List.foldl_cons, List.foldl_nil,
        ih (n / 10) (Nat.div_lt_self (by omega) (by omega)) a,
        digitChar_toNat (n % 10) (by omega)]
      rw [List.length_append]
      simp only [List.length_singleton]
      rw [pow_succ]
      have := Nat.div_add_mod n 10
      ring_nf
      omega

/-- `Number` applied to the decimal rendering recovers the number. -/
theorem parseDecimal_natToDecimal (n : Nat) : parseDecimal (natToDecimal n) = n := by
  rw [parseDecimal]
  have hne : natToDecimal n ≠ [] := natToDecimal_ne_nil n
  have hall : (natToDecimal n).all (fun c => c.isDigit) = true := by
    rw [List.all_eq_true]
    exact natToDecimal_digits n
  simp only [hne, hall, ne_eq, not_false_eq_true, and_self, if_true, true_and]
  rw [decFold_natToDecimal n 0]
  simp

/-! ### Helper lemmas: reducing `verifyPassword` -/

deriving instance DecidableEq for Except

theorem verifyPassword_eq_of_parts (kdf : KDF)
    (password stored saltHex hashHex iterStr : List Char) (salt : List Nat)
    (h : splitOnColon stored = [saltHex, hashHex, iterStr])
    (hsalt : hex2buf saltHex = .ok salt) :
    verifyPassword kdf password stored
      = .ok (constantTimeEqual
          (buf2hex (kdf password salt (parseDecimal iterStr) (hashHex.length / 2)))
          hashHex) := by
  simp only [verifyPassword, h, hsalt]

theorem verifyPassword_error_of_parts (kdf : KDF)
    (password stored saltHex hashHex iterStr : List Char) (e : String)
    (h : splitOnColon stored = [saltHex, hashHex, iterStr])
    (hsalt : hex2buf saltHex = .error e) :
    verifyPassword kdf password stored = .error e := by
  simp only [verifyPassword, h, hsalt]

theorem verifyPassword_malformed (kdf : KDF) (password stored : List Char)
    (h : (splitOnColon stored).length ≠ 3) :
    verifyPassword kdf password stored = .error "Bad hash format" := by
  unfold verifyPassword
  cases hs : splitOnColon stored with
  | nil => rfl
  | cons a t =>
    cases t with
    | nil => rfl
    | cons b t2 =>
      cases t2 with
      | nil => rfl
      | cons c t3 =>
        cases t3 with
        | nil => rw [hs] at h; simp at h
        | cons d t4 => rfl

/-- Behaviour of `verifyPassword` on any well-formed credential
`hex(salt):hex(dk):decimal(iter)`: it re-derives `dk.length` bytes with the
stored salt and stored iteration count and compares the hex encodings. -/
theorem verify_wellformed (kdf : KDF) (password : List Char) (salt dk : List Nat)
    (hsb : ∀ b ∈ salt, b < 256) (hdb : ∀ b ∈ dk, b < 256) (iter : Nat) :
    verifyPassword kdf password
        (buf2hex salt ++ ':' :: (buf2hex dk ++ ':' :: natToDecimal iter))
      = .ok (constantTimeEqual
          (buf2hex (kdf password salt iter dk.length)) (buf2hex dk)) := by
  have hsplit := splitOnColon_three (buf2hex salt) (buf2hex dk) (natToDecimal iter)
    (buf2hex_no_colon salt hsb) (buf2hex_no_colon dk hdb) (natToDecimal_no_colon iter)
  have h := verifyPassword_eq_of_parts kdf password _ _ _ _ salt hsplit
    (hex2buf_buf2hex salt hsb)
  rw [h, parseDecimal_natToDecimal, buf2hex_length dk hdb]
  have : 2 * dk.length / 2 = dk.length := by omega
  rw [this]

/-! ### Helper lemmas: session store -/

theorem findSessions_deleteSessions (db : SessionStore) (token : List Char) :
    findSessions (deleteSessions db token) token = [] := by
  simp only [findSessions, deleteSessions, List.filter_filter]
  rw [List.filter_eq_nil_iff]
  intro s _
  simp

theorem mem_deleteSessions {db : SessionStore} {token : List Char} {s : SessionRecord}
    (h : s ∈ deleteSessions db token) : s ∈ db ∧ s.token ≠ token := by
  rw [deleteSessions, List.mem_filter] at h
  refine ⟨h.1, ?_⟩
  have := h.2
  simp at this
  exact this

theorem deleteSessions_eq_self {db : SessionStore} {token : List Char}
    (h : findSessions db token = []) : deleteSessions db token = db := by
  rw [deleteSessions, List.filter_eq_self]
  rw [findSessions, List.filter_eq_nil_iff] at h
  intro s hs
  simpa using h s hs

theorem getUserFromSession_empty (db : SessionStore) (users : List UserRecord) (now : Nat) :
    getUserFromSession db users [] now = (none, db) := by
  simp [getUserFromSession]

theorem getUserFromSession_not_found (db : SessionStore) (users : List UserRecord)
    (token : List Char) (now : Nat) (htok : token ≠ [])
    (h : findSessions db token = []) :
    getUserFromSession db users token now = (none, db) := by
  simp [getUserFromSession, htok, h]

theorem getUserFromSession_expired (db : SessionStore) (users : List UserRecord)
    (token : List Char) (now : Nat) (sess : SessionRecord) (rest : List SessionRecord)
    (htok : token ≠ []) (hfind : findSessions db token = sess :: rest)
    (hexp : sess.expiresAt ≤ now) :
    getUserFromSession db users token now = (none, deleteSessions db token) := by
  simp [getUserFromSession, htok, hfind, hexp]

theorem getUserFromSession_snd_subset (db : SessionStore) (users : List UserRecord)
    (token : List Char) (now : Nat) :
    ∀ s ∈ (getUserFromSession db users token now).snd, s ∈ db := by
  intro s hs
  unfold getUserFromSession at hs
  split at hs
  · exact hs
  · split at hs
    · exact hs
    · split at hs
      · exact (mem_deleteSessions hs).1
      · split at hs
        · exact hs
        · exact hs

theorem revokeSession_subset (db : SessionStore) (token : List Char) :
    ∀ s ∈ revokeSession db token, s ∈ db := by
  intro s hs
  unfold revokeSession at hs
  split at hs
  · exact hs
  · exact (mem_deleteSessions hs).1

/-! ### Concrete key-derivation instances used by the witnesses -/

/-- A trivially well-behaved KDF instance: every derived byte is 171. -/
def kdfZero : KDF := fun _ _ _ n => List.replicate n 171

theorem kdfZero_wb : WellBehavedKDF kdfZero := by
  constructor
  · intro pw salt iter n
    simp [kdfZero]
  · intro pw salt iter n b hb
    rw [kdfZero, List.mem_replicate] at hb
    omega

/-- A well-behaved KDF instance that depends on the password, so that two
distinct passwords can derive distinct keys. -/
def kdfLen : KDF := fun pw _ _ n => List.replicate n (pw.length % 256)

theorem kdfLen_wb : WellBehavedKDF kdfLen := by
  constructor
  · intro pw salt iter n
    simp [kdfLen]
  · intro pw salt iter n b hb
    rw [kdfLen, List.mem_replicate] at hb
    have := hb.2
    omega

/-! ### The claims -/

/-- Claim C1: for every password P, verifying P against the credential
produced by hashing P succeeds — `verifyPassword(P, hashPassword(P))`
returns true, for any salt the random source may produce (any list of
bytes). -/
theorem verify_hash_roundtrip (kdf : KDF) (hk : WellBehavedKDF kdf)
    (salt : List Nat) (hsb : ∀ b ∈ salt, b < 256) (password : List Char) :
    verifyPassword kdf password (hashPassword kdf salt password) = .ok true := by
  have hdb := hk.bytes_lt password salt ITERATIONS KEY_LEN
  have hdl := hk.length_eq password salt ITERATIONS KEY_LEN
  show verifyPassword kdf password
      (buf2hex salt ++ ':' ::
        (buf2hex (kdf password salt ITERATIONS KEY_LEN) ++ ':' :: natToDecimal ITERATIONS))
    = .ok true
  rw [verify_wellformed kdf password salt _ hsb hdb ITERATIONS, hdl,
    (ctEq_true_iff _ _).mpr rfl]

/-- Witness for C1 at a concrete salt and password. -/
theorem verify_hash_roundtrip_witness :
    verifyPassword kdfZero "pw".data (hashPassword kdfZero [0, 255] "pw".data) = .ok true :=
  verify_hash_roundtrip kdfZero kdfZero_wb [0, 255] (by decide) "pw".data

/-- Claim C2, counterexample: the comparison in `verifyPassword` is *not* the
spec's XOR-accumulate over byte arrays — it XORs character codes of the hex
strings.  Concretely, for the stored credential `00:AB:1` (salt `[0]`, stored
key byte `[171]` written in uppercase hex) and a KDF deriving exactly
`[171]`, the byte arrays are equal and the spec's byte comparison accepts,
yet `verifyPassword` returns false because the lowercase re-encoding `ab`
differs from `AB` character-wise. -/
theorem charcode_vs_bytes_counterexample :
    verifyPassword kdfZero "p".data ['0', '0', ':', 'A', 'B', ':', '1'] = .ok false
    ∧ hex2buf ['A', 'B'] = .ok [171]
    ∧ kdfZero "p".data [0] 1 1 = [171]
    ∧ ctEqualBytesSpec (kdfZero "p".data [0] 1 1) [171] = true :=
  ⟨by decide, by decide, by decide, by decide⟩

/-- Claim C2 (amended): `verifyPassword` compares the hex encoding of the
newly derived key to the stored derived-key *hex string* via
`constantTimeEqual`, a fixed-length XOR-accumulate over the character codes
of the two strings (not over raw byte arrays) with no early exit, and a
length mismatch between the compared values yields an immediate false result
rather than a thrown error. -/
theorem constant_time_compare_charcodes (kdf : KDF) :
    (∀ a b : List Char, a.length ≠ b.length → constantTimeEqual a b = false)
    ∧ (∀ a b : List Char, a.length = b.length →
        (constantTimeEqual a b = true ↔
          ∀ x ∈ List.zipWith (fun x y => x.toNat ^^^ y.toNat) a b, x = 0))
    ∧ (∀ password salt dk iter, (∀ x ∈ salt, x < 256) → (∀ x ∈ dk, x < 256) →
        verifyPassword kdf password
            (buf2hex salt ++ ':' :: (buf2hex dk ++ ':' :: natToDecimal iter))
          = .ok (constantTimeEqual
              (buf2hex (kdf password salt iter dk.length)) (buf2hex dk))) := by
  refine ⟨?_, ?_, ?_⟩
  · intro a b h
    rw [constantTimeEqual]
    simp [h]
  · intro a b hl
    rw [constantTimeEqual]
    simp only [hl, ne_eq, not_true_eq_false, if_false, beq_iff_eq]
    rw [foldl_lor_eq_zero]
    simp
  · intro password salt dk iter hsb hdb
    exact verify_wellformed kdf password salt dk hsb hdb iter

/-- Witness for the amended C2 at concrete inputs. -/
theorem constant_time_compare_charcodes_witness :
    constantTimeEqual ['a'] ['a', 'b'] = false
    ∧ verifyPassword kdfZero "p".data
        (buf2hex [0] ++ ':' :: (buf2hex [171] ++ ':' :: natToDecimal 1)) = .ok true := by
  constructor
  · exact (constant_time_compare_charcodes kdfZero).1 ['a'] ['a', 'b'] (by decide)
  · rw [(constant_time_compare_charcodes kdfZero).2.2 "p".data [0] [171] 1
      (by decide) (by decide)]
    decide

/-- Claim C3: `verifyPassword` raises the malformed-credential error
(`'Bad hash format'`) exactly when the stored string does not split into
three colon-separated parts, and on a well-formed credential produced by
`hashPassword` a simple password mismatch never throws — it returns
`ok false`. -/
theorem verify_malformed_and_mismatch (kdf : KDF) (hk : WellBehavedKDF kdf) :
    (∀ password stored, (splitOnColon stored).length ≠ 3 →
        verifyPassword kdf password stored = .error "Bad hash format")
    ∧ (∀ password1 password2 salt, (∀ x ∈ salt, x < 256) →
        verifyPassword kdf password2 (hashPassword kdf salt password1)
          = .ok (constantTimeEqual
              (buf2hex (kdf password2 salt ITERATIONS KEY_LEN))
              (buf2hex (kdf password1 salt ITERATIONS KEY_LEN)))
        ∧ (kdf password2 salt ITERATIONS KEY_LEN ≠ kdf password1 salt ITERATIONS KEY_LEN →
            verifyPassword kdf password2 (hashPassword kdf salt password1) = .ok false)) := by
  constructor
  · exact fun password stored h => verifyPassword_malformed kdf password stored h
  · intro password1 password2 salt hsb
    have hdb := hk.bytes_lt password1 salt ITERATIONS KEY_LEN
    have hdl := hk.length_eq password1 salt ITERATIONS KEY_LEN
    have heq : verifyPassword kdf password2 (hashPassword kdf salt password1)
        = .ok (constantTimeEqual
            (buf2hex (kdf password2 salt ITERATIONS KEY_LEN))
            (buf2hex (kdf password1 salt ITERATIONS KEY_LEN))) := by
      show verifyPassword kdf password2
          (buf2hex salt ++ ':' ::
            (buf2hex (kdf password1 salt ITERATIONS KEY_LEN) ++ ':' ::
              natToDecimal ITERATIONS)) = _
      rw [verify_wellformed kdf password2 salt _ hsb hdb ITERATIONS, hdl]
    refine ⟨heq, fun hne => ?_⟩
    rw [heq]
    have hfalse : constantTimeEqual
        (buf2hex (kdf password2 salt ITERATIONS KEY_LEN))
        (buf2hex (kdf password1 salt ITERATIONS KEY_LEN)) = false := by
      rw [Bool.eq_false_iff]
      intro habs
      exact hne (buf2hex_inj (hk.bytes_lt password2 salt ITERATIONS KEY_LEN) hdb
        ((ctEq_true_iff _ _).mp habs))
    rw [hfalse]

/-- Witness for C3: a two-part stored string errors, and a wrong password
against a concretely hashed credential returns `ok false` without
throwing. -/
theorem verify_malformed_and_mismatch_witness :
    verifyPassword kdfLen "x".data ['a', ':', 'b'] = .error "Bad hash format"
    ∧ verifyPassword kdfLen "bb".data (hashPassword kdfLen [7] "a".data) = .ok false := by
  constructor
  · exact (verify_malformed_and_mismatch kdfLen kdfLen_wb).1 "x".data ['a', ':', 'b']
      (by decide)
  · exact ((verify_malformed_and_mismatch kdfLen kdfLen_wb).2 "a".data "bb".data [7]
      (by decide)).2 (by decide)

/-- Claim C4: on any well-formed stored credential
`hex(salt):hex(dk):decimal(iter)`, `verifyPassword` re-derives using the
*stored* salt and *stored* iteration count (whatever they are — not the
hardcoded defaults) and requests exactly as many bytes as the stored
derived-key field contains; hence a credential hashed with a different
iteration count or key length still verifies. -/
theorem verify_uses_stored_params (kdf : KDF) (password : List Char)
    (salt dk : List Nat) (iter : Nat)
    (hsb : ∀ x ∈ salt, x < 256) (hdb : ∀ x ∈ dk, x < 256) :
    verifyPassword kdf password
        (buf2hex salt ++ ':' :: (buf2hex dk ++ ':' :: natToDecimal iter))
      = .ok (constantTimeEqual (buf2hex (kdf password salt iter dk.length)) (buf2hex dk))
    ∧ (kdf password salt iter dk.length = dk →
        verifyPassword kdf password
            (buf2hex salt ++ ':' :: (buf2hex dk ++ ':' :: natToDecimal iter))
          = .ok true) := by
  have h := verify_wellformed kdf password salt dk hsb hdb iter
  refine ⟨h, fun hmatch => ?_⟩
  rw [h, hmatch, (ctEq_true_iff _ _).mpr rfl]

/-- Witness for C4: a credential with a 1-byte key and iteration count 5
(neither matching the defaults 32 and 100000) verifies. -/
theorem verify_uses_stored_params_witness :
    verifyPassword kdfZero "pw".data
        (buf2hex [3] ++ ':' :: (buf2hex [171] ++ ':' :: natToDecimal 5)) = .ok true :=
  (verify_uses_stored_params kdfZero "pw".data [3] [171] 5 (by decide) (by decide)).2
    (by decide)

/-- Claim C7: for every password, `hashPassword` returns exactly
`hex(salt):hex(derivedKey):decimalIterationCount` — with a 16-byte salt the
salt field is 32 hex characters, the derived-key field is 64 hex characters
(32 bytes), and the iteration field is the decimal literal `100000`. -/
theorem hash_output_format (kdf : KDF) (hk : WellBehavedKDF kdf)
    (salt : List Nat) (hlen : salt.length = SALT_LEN) (hsb : ∀ x ∈ salt, x < 256)
    (password : List Char) :
    splitOnColon (hashPassword kdf salt password)
      = [buf2hex salt, buf2hex (kdf password salt ITERATIONS KEY_LEN),
          natToDecimal ITERATIONS]
    ∧ (buf2hex salt).length = 32
    ∧ (buf2hex (kdf password salt ITERATIONS KEY_LEN)).length = 64
    ∧ (∀ c ∈ buf2hex salt, (hexVal c).isSome = true)
    ∧ (∀ c ∈ buf2hex (kdf password salt ITERATIONS KEY_LEN), (hexVal c).isSome = true)
    ∧ natToDecimal ITERATIONS = ['1', '0', '0', '0', '0', '0'] := by
  have hdb := hk.bytes_lt password salt ITERATIONS KEY_LEN
  have hdl := hk.length_eq password salt ITERATIONS KEY_LEN
  refine ⟨?_, ?_, ?_, buf2hex_hexVal salt hsb, buf2hex_hexVal _ hdb, by decide⟩
  · show splitOnColon (buf2hex salt ++ ':' ::
        (buf2hex (kdf password salt ITERATIONS KEY_LEN) ++ ':' :: natToDecimal ITERATIONS))
      = _
    exact splitOnColon_three _ _ _ (buf2hex_no_colon salt hsb) (buf2hex_no_colon _ hdb)
      (natToDecimal_no_colon _)
  · rw [buf2hex_length salt hsb, hlen]
    rfl
  · rw [buf2hex_length _ hdb, hdl]
    rfl

/-- Witness for C7 at a concrete 16-byte salt. -/
theorem hash_output_format_witness :
    splitOnColon (hashPassword kdfZero (List.replicate 16 0) "pw".data)
      = [buf2hex (List.replicate 16 0),
          buf2hex (kdfZero "pw".data (List.replicate 16 0) ITERATIONS KEY_LEN),
          natToDecimal ITERATIONS]
    ∧ (buf2hex (List.replicate 16 0)).length = 32 :=
  ⟨(hash_output_format kdfZero kdfZero_wb (List.replicate 16 0) (by decide) (by decide)
      "pw".data).1,
   (hash_output_format kdfZero kdfZero_wb (List.replicate 16 0) (by decide) (by decide)
      "pw".data).2.1⟩

/-- Claim C10: a stored credential can split into exactly three
colon-separated parts and still make `verifyPassword` throw: an odd number
of hex characters in the salt field raises the generic `'Invalid hex
string'` error, which is distinct from the malformed-credential error
(`'Bad hash format'`) and is not a false return. -/
theorem verify_invalid_hex_throws (kdf : KDF) (password : List Char) :
    verifyPassword kdf password ['a', 'b', 'c', ':', 'd', 'e', ':', '1']
      = .error "Invalid hex string"
    ∧ splitOnColon ['a', 'b', 'c', ':', 'd', 'e', ':', '1']
      = [['a', 'b', 'c'], ['d', 'e'], ['1']]
    ∧ "Invalid hex string" ≠ "Bad hash format" := by
  refine ⟨?_, by decide, by decide⟩
  exact verifyPassword_error_of_parts kdf password _ ['a', 'b', 'c'] ['d', 'e'] ['1'] _
    (by decide) (by decide)

/-- Claim C5: for every token whose session record exists, validating it at
any time at or past the record's expiry deletes the session record and
returns null; every subsequent validation of the same token also returns
null; and at or after expiry the token never resolves to a user.  (The
token of an existing session is nonempty: tokens are random UUIDs.) -/
theorem validate_expired_deletes (db : SessionStore) (users : List UserRecord)
    (token : List Char) (now : Nat) (sess : SessionRecord) (rest : List SessionRecord)
    (htok : token ≠ [])
    (hfind : findSessions db token = sess :: rest)
    (hexp : sess.expiresAt ≤ now) :
    getUserFromSession db users token now = (none, deleteSessions db token)
    ∧ (∀ s ∈ deleteSessions db token, s.token ≠ token)
    ∧ (∀ users2 now2, getUserFromSession (deleteSessions db token) users2 token now2
        = (none, deleteSessions db token))
    ∧ (∀ users2 now2, sess.expiresAt ≤ now2 →
        (getUserFromSession db users2 token now2).fst = none) := by
  refine ⟨getUserFromSession_expired db users token now sess rest htok hfind hexp,
    fun s hs => (mem_deleteSessions hs).2, ?_, ?_⟩
  · intro users2 now2
    exact getUserFromSession_not_found _ users2 token now2 htok
      (findSessions_deleteSessions db token)
  · intro users2 now2 h2
    rw [getUserFromSession_expired db users2 token now2 sess rest htok hfind h2]

/-- Witness for C5: a concrete store with one expired session. -/
theorem validate_expired_deletes_witness :
    getUserFromSession [⟨1, ['t'], 0, 100⟩] [] ['t'] 100 = (none, [])
    ∧ getUserFromSession [] [] ['t'] 200 = (none, []) := by
  have h := validate_expired_deletes [⟨1, ['t'], 0, 100⟩] [] ['t'] 100
    ⟨1, ['t'], 0, 100⟩ [] (by decide) (by decide) (by decide)
  have hdel : deleteSessions [⟨1, ['t'], 0, 100⟩] ['t'] = [] := by decide
  constructor
  · have h1 := h.1
    rw [hdel] at h1
    exact h1
  · have h3 := h.2.2.1 [] 200
    rw [hdel] at h3
    exact h3

/-- Claim C6, counterexample: the register/login handlers read the clock
twice (`new Date()` for the expiry computation, then `Date.now()` for
`created_at`), so when the two readings straddle a second boundary the
persisted `expiresAt` is not exactly `createdAt + 2 592 000`: at readings
999 ms and 1000 ms the difference is 2 591 999 seconds. -/
theorem expiry_offset_counterexample :
    ¬ ((issueSession 1 ['t'] 999 1000).expiresAt
        = (issueSession 1 ['t'] 999 1000).createdAt + 2592000) := by decide

/-- Claim C6 (amended): the persisted `expiresAt` equals 30 days
(2 592 000 s) after the *first* clock reading (floored to seconds) and
`createdAt` is the *second* clock reading floored to seconds, both at
second granularity; `expiresAt = createdAt + 2 592 000` holds exactly when
the two readings fall within the same second.  Neither field is ever
changed after issuance: validation and revocation only remove whole
records (no sliding expiry). -/
theorem expiry_thirty_days_amended (uid : Nat) (token : List Char) (t0Ms t1Ms : Nat) :
    (issueSession uid token t0Ms t1Ms).expiresAt = t0Ms / 1000 + 2592000
    ∧ (issueSession uid token t0Ms t1Ms).createdAt = t1Ms / 1000
    ∧ (t0Ms / 1000 = t1Ms / 1000 →
        (issueSession uid token t0Ms t1Ms).expiresAt
          = (issueSession uid token t0Ms t1Ms).createdAt + 2592000)
    ∧ (∀ db users tok now, ∀ s ∈ (getUserFromSession db users tok now).snd, s ∈ db)
    ∧ (∀ db tok, ∀ s ∈ revokeSession db tok, s ∈ db) := by
  have hexp : (issueSession uid token t0Ms t1Ms).expiresAt = t0Ms / 1000 + 2592000 := by
    show (t0Ms + 2592000000) / 1000 = t0Ms / 1000 + 2592000
    rw [show (2592000000 : Nat) = 2592000 * 1000 from rfl,
      Nat.add_mul_div_right t0Ms 2592000 (by omega)]
  refine ⟨hexp, rfl, fun h10 => ?_, getUserFromSession_snd_subset, revokeSession_subset⟩
  rw [hexp]
  show _ = t1Ms / 1000 + 2592000
  rw [h10]

/-- Witness for the amended C6: two readings inside the same second give
exactly the 30-day offset. -/
theorem expiry_thirty_days_amended_witness :
    (issueSession 1 ['t'] 500 700).expiresAt
      = (issueSession 1 ['t'] 500 700).createdAt + 2592000 :=
  (expiry_thirty_days_amended 1 ['t'] 500 700).2.2.1 (by decide)

/-- Claim C8: validating an empty/absent token returns null without touching
the store (the empty check precedes any lookup), and validating a token with
no matching session record returns null; in both cases the session store is
returned unchanged. -/
theorem validate_no_session_no_mutation (db : SessionStore) (users : List UserRecord)
    (token : List Char) (now : Nat)
    (h : token = [] ∨ findSessions db token = []) :
    getUserFromSession db users token now = (none, db) := by
  rcases h with h | h
  · rw [h]
    exact getUserFromSession_empty db users now
  · by_cases htok : token = []
    · rw [htok]
      exact getUserFromSession_empty db users now
    · exact getUserFromSession_not_found db users token now htok h

/-- Witness for C8: both the empty token and a nonexistent token leave a
concrete nonempty store untouched. -/
theorem validate_no_session_no_mutation_witness :
    getUserFromSession [⟨1, ['t'], 0, 100⟩] [] [] 5 = (none, [⟨1, ['t'], 0, 100⟩])
    ∧ getUserFromSession [⟨1, ['t'], 0, 100⟩] [] ['x'] 5 = (none, [⟨1, ['t'], 0, 100⟩]) :=
  ⟨validate_no_session_no_mutation [⟨1, ['t'], 0, 100⟩] [] [] 5 (Or.inl rfl),
   validate_no_session_no_mutation [⟨1, ['t'], 0, 100⟩] [] ['x'] 5 (Or.inr (by decide))⟩

/-- Claim C9: revocation is idempotent — revoking twice equals revoking
once, revoking a token with no session record is a no-op rather than an
error, and after a revoke every subsequent validation of that token returns
null (with no further store change). -/
theorem revoke_idempotent (db : SessionStore) (token : List Char) :
    revokeSession (revokeSession db token) token = revokeSession db token
    ∧ (findSessions db token = [] → revokeSession db token = db)
    ∧ (∀ users now, getUserFromSession (revokeSession db token) users token now
        = (none, revokeSession db token)) := by
  by_cases htok : token = []
  · subst htok
    refine ⟨rfl, fun _ => rfl, fun users now => ?_⟩
    show getUserFromSession db users [] now = (none, db)
    exact getUserFromSession_empty db users now
  · have hrev : revokeSession db token = deleteSessions db token := by
      rw [revokeSession, if_neg htok]
    refine ⟨?_, fun h => ?_, fun users now => ?_⟩
    · rw [hrev, revokeSession, if_neg htok, deleteSessions, deleteSessions,
        List.filter_filter]
      simp
    · rw [hrev]
      exact deleteSessions_eq_self h
    · rw [hrev]
      exact getUserFromSession_not_found _ users token now htok
        (findSessions_deleteSessions db token)

/-- Witness for C9: revoking an absent token is a no-op, and validation
after a concrete revoke yields null. -/
theorem revoke_idempotent_witness :
    revokeSession [] ['t'] = ([] : SessionStore)
    ∧ getUserFromSession (revokeSession [⟨1, ['t'], 0, 100⟩] ['t']) [] ['t'] 5
        = (none, revokeSession [⟨1, ['t'], 0, 100⟩] ['t']) :=
  ⟨(revoke_idempotent [] ['t']).2.1 (by decide),
   (revoke_idempotent [⟨1, ['t'], 0, 100⟩] ['t']).2.2 [] 5⟩
